import Mathlib

/- Shallow embedding of the metaprotocol detection engine of the
   bitcoin-mp-monitor repository (src/lib.rs), together with theorems about
   its detectors, classifier, stats aggregator and demo generator.

   Modelling conventions:
   * Rust u64 arithmetic is Nat arithmetic reduced modulo 2^64 wherever the
     source can wrap (the LCG, SipHash, the stats counters).
   * Fallible Rust code is modelled with Option; a Rust panic (the
     out-of-range string slice in extract_brc20_from_witness) is modelled
     as Except.error ().
   * hex::decode / hex::encode, str::find / str::contains,
     String::from_utf8_lossy, the single regex used by the brc-20 detector
     and the fragment of serde_json exercised by the program are modelled
     explicitly below.  Comments note the corners (full Unicode case
     folding, \u string escapes, non-integer JSON numbers) that the
     detection pipeline of this program never exercises on the inputs the
     theorems below are about.
-/

namespace Btc

/- ### Characters that the scanner rules force us to build by code point -/

def braceOpenChar : Char := Char.ofNat 123

def braceCloseChar : Char := Char.ofNat 125

def quoteChar : Char := Char.ofNat 34

def nullChar : Char := Char.ofNat 0

def repChar : Char := Char.ofNat 0xFFFD

/- ### hex::decode / hex::encode -/

/-- Value of one hex digit, both cases accepted, exactly as `hex::decode`. -/
def hexDigitVal (c : Char) : Option Nat :=
  if 48 ≤ c.toNat ∧ c.toNat ≤ 57 then some (c.toNat - 48)
  else if 97 ≤ c.toNat ∧ c.toNat ≤ 102 then some (c.toNat - 87)
  else if 65 ≤ c.toNat ∧ c.toNat ≤ 70 then some (c.toNat - 55)
  else none

/-- `hex::decode` on the character list: fails on odd length or any
non-hex-digit character, otherwise yields the byte list. -/
def hexDecodeList : List Char → Option (List Nat)
  | [] => some []
  | [_] => none
  | c1 :: c2 :: rest =>
    match hexDigitVal c1, hexDigitVal c2, hexDecodeList rest with
    | some h, some l, some bs => some ((16 * h + l) :: bs)
    | _, _, _ => none

def hexDecode (s : String) : Option (List Nat) :=
  hexDecodeList s.data

/-- Lower-case hex digit of a value below 16, as `hex::encode` emits. -/
def hexDigitChar (n : Nat) : Char :=
  if n < 10 then Char.ofNat (48 + n) else Char.ofNat (87 + n)

def hexEncodeList (bs : List Nat) : List Char :=
  bs.foldr (fun b acc => hexDigitChar (b / 16 % 16) :: hexDigitChar (b % 16) :: acc) []

def hexEncode (bs : List Nat) : String :=
  String.mk (hexEncodeList bs)

/- ### str::find / str::contains / slicing

`str::find` returns the byte index of the first occurrence; all strings the
detector searches are hex encodings, hence pure ASCII, so byte indices and
character indices coincide. -/

def findSub (pat : List Char) : List Char → Nat → Option Nat
  | [], i => if pat.isEmpty then some i else none
  | s@(_ :: rest), i => if pat.isPrefixOf s then some i else findSub pat rest (i + 1)

def strFind (s pat : String) : Option Nat :=
  findSub pat.data s.data 0

def strContains (s pat : String) : Bool :=
  (strFind s pat).isSome

/-- `&s[n..]`; the in-range check is done at the call site, where the Rust
slice panics when `n` exceeds the length. -/
def strDrop (s : String) (n : Nat) : String :=
  String.mk (s.data.drop n)

/-- `str::starts_with`; all compared script strings are ASCII. -/
def strStarts (s pat : String) : Bool :=
  pat.data.isPrefixOf s.data

/- ### String::from_utf8_lossy

Exact on valid UTF-8 (which includes all ASCII, the only case the theorems
below evaluate); on invalid sequences it emits U+FFFD per rejected leading
sequence, a faithful rendering of the lossy policy for the one-error-per-
sequence cases. -/

def isContByte (b : Nat) : Bool :=
  decide (128 ≤ b ∧ b ≤ 191)

def utf8LossyAux : Nat → List Nat → List Char
  | 0, _ => []
  | _, [] => []
  | f + 1, b :: rest =>
    if b < 128 then Char.ofNat b :: utf8LossyAux f rest
    else if 194 ≤ b ∧ b ≤ 223 then
      match rest with
      | b2 :: rest2 =>
        if isContByte b2 then
          Char.ofNat ((b - 192) * 64 + (b2 - 128)) :: utf8LossyAux f rest2
        else repChar :: utf8LossyAux f rest
      | [] => [repChar]
    else if 224 ≤ b ∧ b ≤ 239 then
      match rest with
      | b2 :: rest2 =>
        let okB2 : Bool :=
          if b = 224 then decide (160 ≤ b2 ∧ b2 ≤ 191)
          else if b = 237 then decide (128 ≤ b2 ∧ b2 ≤ 159)
          else isContByte b2
        if okB2 then
          match rest2 with
          | b3 :: rest3 =>
            if isContByte b3 then
              Char.ofNat ((b - 224) * 4096 + (b2 - 128) * 64 + (b3 - 128)) ::
                utf8LossyAux f rest3
            else repChar :: utf8LossyAux f rest2
          | [] => [repChar]
        else repChar :: utf8LossyAux f rest
      | [] => [repChar]
    else if 240 ≤ b ∧ b ≤ 244 then
      match rest with
      | b2 :: rest2 =>
        let okB2 : Bool :=
          if b = 240 then decide (144 ≤ b2 ∧ b2 ≤ 191)
          else if b = 244 then decide (128 ≤ b2 ∧ b2 ≤ 143)
          else isContByte b2
        if okB2 then
          match rest2 with
          | b3 :: rest3 =>
            if isContByte b3 then
              match rest3 with
              | b4 :: rest4 =>
                if isContByte b4 then
                  Char.ofNat ((b - 240) * 262144 + (b2 - 128) * 4096 +
                      (b3 - 128) * 64 + (b4 - 128)) :: utf8LossyAux f rest4
                else repChar :: utf8LossyAux f rest3
              | [] => [repChar]
            else repChar :: utf8LossyAux f rest2
          | [] => [repChar]
        else repChar :: utf8LossyAux f rest
      | [] => [repChar]
    else repChar :: utf8LossyAux f rest

def utf8Lossy (bs : List Nat) : List Char :=
  utf8LossyAux (bs.length + 1) bs

/-- `.replace` of the null character by the empty string. -/
def stripNulls (cs : List Char) : List Char :=
  cs.filter (fun c => c ≠ nullChar)

/- ### Case folding: ASCII fragment of `str::to_lowercase`/`to_uppercase`;
all operation and ticker strings the program compares are ASCII. -/

def strLower (s : String) : String :=
  String.mk (s.data.map Char.toLower)

def strUpper (s : String) : String :=
  String.mk (s.data.map Char.toUpper)

/- ### serde_json::Value and the fragment of serde_json::from_str the
program can reach.

The only strings the program ever hands to `from_str` are regex matches —
an opening brace, a run of non-closing-brace characters, a closing brace;
the parser below covers the full JSON grammar over such inputs except `\u` string escapes and non-integer numbers, which the
concrete inputs of the theorems below never contain.  Duplicate object
keys follow serde_json's map semantics: the last occurrence wins. -/

inductive Json where
  | null : Json
  | bool : Bool → Json
  | num : Int → Json
  | str : String → Json
  | arr : List Json → Json
  | obj : List (String × Json) → Json
deriving BEq

/-- `Value::get(key)` followed by use of the result: last duplicate wins,
as in serde_json's map insertion. -/
def jget (j : Json) (k : String) : Option Json :=
  match j with
  | Json.obj kvs => ((kvs.filter (fun kv => kv.1 = k)).getLast?).map (fun kv => kv.2)
  | _ => none

def jsonWsChar (c : Char) : Bool :=
  c = ' ' ∨ c = Char.ofNat 9 ∨ c = Char.ofNat 10 ∨ c = Char.ofNat 13

def jskipWs (s : List Char) : List Char :=
  s.dropWhile jsonWsChar

/-- Consume an expected literal character sequence. -/
def dropLit : List Char → List Char → Option (List Char)
  | [], s => some s
  | _ :: _, [] => none
  | c :: cs, d :: ds => if c = d then dropLit cs ds else none

/-- JSON string body after the opening quote.  Handles the escapes
serde_json accepts except `\uXXXX` (never present in the program's
candidate payloads); raw control characters are rejected as serde does. -/
def parseStrBody : Nat → List Char → Option (String × List Char)
  | 0, _ => none
  | _, [] => none
  | f + 1, c :: rest =>
    if c = quoteChar then some ("", rest)
    else if c = '\\' then
      match rest with
      | [] => none
      | e :: rest2 =>
        let dec : Option Char :=
          if e = quoteChar then some quoteChar
          else if e = '\\' then some '\\'
          else if e = '/' then some '/'
          else if e = 'b' then some (Char.ofNat 8)
          else if e = 'f' then some (Char.ofNat 12)
          else if e = 'n' then some (Char.ofNat 10)
          else if e = 'r' then some (Char.ofNat 13)
          else if e = 't' then some (Char.ofNat 9)
          else none
        match dec with
        | some d =>
          match parseStrBody f rest2 with
          | some (s, r) => some (String.mk (d :: s.data), r)
          | none => none
        | none => none
    else if c.toNat < 32 then none
    else
      match parseStrBody f rest with
      | some (s, r) => some (String.mk (c :: s.data), r)
      | none => none

def digitVal (c : Char) : Option Nat :=
  if 48 ≤ c.toNat ∧ c.toNat ≤ 57 then some (c.toNat - 48) else none

def parseDigits : Nat → List Char → Nat → Option (Nat × List Char)
  | 0, _, _ => none
  | _ + 1, [], acc => some (acc, [])
  | f + 1, c :: rest, acc =>
    match digitVal c with
    | some d => parseDigits f rest (acc * 10 + d)
    | none => some (acc, c :: rest)

/-- Integer JSON numbers (serde also accepts fraction/exponent forms as
floats; the detector's candidate objects never carry them and the model
rejects them). -/
def parseNum (fuel : Nat) (s : List Char) : Option (Json × List Char) :=
  let (neg, s1) :=
    match s with
    | c :: rest => if c = '-' then (true, rest) else (false, s)
    | [] => (false, s)
  match s1 with
  | c :: _ =>
    match digitVal c with
    | some _ =>
      match parseDigits fuel s1 0 with
      | some (n, r) =>
        match r with
        | d :: _ => if d = '.' ∨ d = 'e' ∨ d = 'E' then none
            else some (Json.num (if neg then -(n : Int) else (n : Int)), r)
        | [] => some (Json.num (if neg then -(n : Int) else (n : Int)), r)
      | none => none
    | none => none
  | [] => none

mutual

def parseVal : Nat → List Char → Option (Json × List Char)
  | 0, _ => none
  | f + 1, s =>
    match jskipWs s with
    | [] => none
    | c :: rest =>
      if c = quoteChar then
        match parseStrBody (f + 1) rest with
        | some (str, r) => some (Json.str str, r)
        | none => none
      else if c = braceOpenChar then
        match jskipWs rest with
        | d :: rest2 =>
          if d = braceCloseChar then some (Json.obj [], rest2)
          else
            match parseMembers f (d :: rest2) with
            | some (ms, r) => some (Json.obj ms, r)
            | none => none
        | [] => none
      else if c = '[' then
        match jskipWs rest with
        | d :: rest2 =>
          if d = ']' then some (Json.arr [], rest2)
          else
            match parseElems f (d :: rest2) with
            | some (es, r) => some (Json.arr es, r)
            | none => none
        | [] => none
      else if c = 't' then
        match dropLit ['r', 'u', 'e'] rest with
        | some r => some (Json.bool true, r)
        | none => none
      else if c = 'f' then
        match dropLit ['a', 'l', 's', 'e'] rest with
        | some r => some (Json.bool false, r)
        | none => none
      else if c = 'n' then
        match dropLit ['u', 'l', 'l'] rest with
        | some r => some (Json.null, r)
        | none => none
      else parseNum (f + 1) (c :: rest)

/-- One or more `"key": value` members, ending at the closing brace. -/
def parseMembers : Nat → List Char → Option (List (String × Json) × List Char)
  | 0, _ => none
  | f + 1, s =>
    match jskipWs s with
    | c :: rest =>
      if c = quoteChar then
        match parseStrBody (f + 1) rest with
        | some (k, r1) =>
          match jskipWs r1 with
          | d :: r2 =>
            if d = ':' then
              match parseVal f r2 with
              | some (v, r3) =>
                match jskipWs r3 with
                | e :: r4 =>
                  if e = ',' then
                    match parseMembers f r4 with
                    | some (ms, r5) => some ((k, v) :: ms, r5)
                    | none => none
                  else if e = braceCloseChar then some ([(k, v)], r4)
                  else none
                | [] => none
              | none => none
            else none
          | [] => none
        | none => none
      else none
    | [] => none

/-- One or more array elements, ending at the closing bracket. -/
def parseElems : Nat → List Char → Option (List Json × List Char)
  | 0, _ => none
  | f + 1, s =>
    match parseVal f s with
    | some (v, r1) =>
      match jskipWs r1 with
      | e :: r2 =>
        if e = ',' then
          match parseElems f r2 with
          | some (es, r3) => some (v :: es, r3)
          | none => none
        else if e = ']' then some ([v], r2)
        else none
      | [] => none
    | none => none

end

/-- `serde_json::from_str::<serde_json::Value>`: the whole input must be
one JSON value, with only whitespace around it. -/
def jsonFromStr (s : String) : Option Json :=
  match parseVal (s.length + 2) s.data with
  | some (v, rest) => if (jskipWs rest).isEmpty then some v else none
  | none => none

/- ### Data model (src/lib.rs, lines 7-80)

u64 fields are Nat (operations on them are reduced mod 2^64 where the
source can wrap); f64 fields (`value_usd`, `fee_rate`) are modelled as
exact rationals: the detectors never populate `value_usd`, and no claim
depends on `fee_rate` rounding.  `HashMap<String, Value>` data payloads
are insertion-ordered association lists. -/

structure Output where
  scriptpubkey : String
  scriptpubkey_address : Option String
  value : Nat

structure Input where
  txid : String
  vout : Nat
  witness : Option (List String)
  prevout : Option Output

structure TxStatus where
  confirmed : Bool
  block_height : Option Nat
  block_time : Option Nat

structure Transaction where
  txid : String
  size : Nat
  fee : Option Nat
  status : TxStatus
  vout : List Output
  vin : List Input

structure StateChange where
  field : String
  before : Option String
  after : String
  change_type : String

structure Activity where
  protocol : String
  operation : String
  output : Nat
  data : List (String × Json)
  changes : List StateChange
  description : String
  value_usd : Option Rat
  importance : Nat

structure ProtocolStats where
  protocol : String
  total_txs : Nat
  total_volume : Nat
  active_tokens : Nat
  last_activity : Nat
deriving DecidableEq

structure LiveTransaction where
  txid : String
  timestamp : Nat
  protocols : List String
  total_value : Nat
  activities : List Activity
  fee_rate : Rat
  size : Nat

/- ### The brc-20 regex (src/lib.rs line 217)

`\x7b[^\x7d]*"p"\s*:\s*"brc-20"[^\x7d]*\x7d` (written here with the braces
escaped).  Because neither `[^\x7d]` nor any literal of the pattern can
match a closing brace, a match starting at an opening brace extends
exactly to the first closing brace after it, and exists iff the inner
region contains `"p"`, optional whitespace, `:`, optional whitespace,
`"brc-20"`.  `Regex::find` returns the leftmost such match. -/

def regexWsChar (c : Char) : Bool :=
  c = ' ' ∨ c = Char.ofNat 9 ∨ c = Char.ofNat 10 ∨ c = Char.ofNat 11 ∨
  c = Char.ofNat 12 ∨ c = Char.ofNat 13 ∨ c = Char.ofNat 0x85 ∨
  c = Char.ofNat 0xA0 ∨ c = Char.ofNat 0x1680 ∨
  (0x2000 ≤ c.toNat ∧ c.toNat ≤ 0x200A) ∨ c = Char.ofNat 0x2028 ∨
  c = Char.ofNat 0x2029 ∨ c = Char.ofNat 0x202F ∨ c = Char.ofNat 0x205F ∨
  c = Char.ofNat 0x3000

/-- Does `"p"\s*:\s*"brc-20"` match a prefix of the list? -/
def tagAt (s : List Char) : Bool :=
  match dropLit [quoteChar, 'p', quoteChar] s with
  | none => false
  | some s1 =>
    match s1.dropWhile regexWsChar with
    | c :: s2 =>
      if c = ':' then
        (dropLit [quoteChar, 'b', 'r', 'c', '-', '2', '0', quoteChar]
          (s2.dropWhile regexWsChar)).isSome
      else false
    | [] => false

def tagOccurs : List Char → Bool
  | [] => false
  | c :: rest => tagAt (c :: rest) || tagOccurs rest

/-- `Regex::find` for the brc-20 pattern: the leftmost match, returned as
the matched substring. -/
def findBrc20Match : List Char → Option (List Char)
  | [] => none
  | c :: rest =>
    if c = braceOpenChar ∧ rest.any (fun d => d = braceCloseChar) ∧
        tagOccurs (rest.takeWhile (fun d => d ≠ braceCloseChar)) then
      some (braceOpenChar :: rest.takeWhile (fun d => d ≠ braceCloseChar) ++ [braceCloseChar])
    else findBrc20Match rest

/- ### Detectors (src/lib.rs, mod parsers, lines 157-305) -/

/-- `parse_brc20_json` (lines 227-269).  Missing or non-string `op`/`tick`
abort with `none` (the `?` chain); every other shape yields an activity —
including unknown operation names, which get importance 1. -/
def parse_brc20_json (brc20_data : Json) (idx : Nat) : Option Activity :=
  match jget brc20_data "op" with
  | some (Json.str op0) =>
    match jget brc20_data "tick" with
    | some (Json.str tick0) =>
      let op := strLower op0
      let tick := strUpper tick0
      let data0 := [("tick", Json.str tick), ("operation", Json.str op)]
      let data1 := data0 ++
        (match jget brc20_data "amt" with
         | some amt => [("amount", amt)]
         | none => [])
      let data2 := data1 ++
        (match jget brc20_data "max" with
         | some mx => [("max_supply", mx)]
         | none => [])
      let data3 := data2 ++
        (match jget brc20_data "lim" with
         | some lim => [("limit", lim)]
         | none => [])
      let importance : Nat :=
        if op = "deploy" then 8
        else if op = "mint" then 5
        else if op = "transfer" then 3
        else 1
      let description :=
        if op = "deploy" then "New BRC-20 token \x27" ++ tick ++ "\x27 deployed"
        else if op = "mint" then "Minted " ++ tick ++ " tokens"
        else if op = "transfer" then "Transfer " ++ tick ++ " tokens"
        else "Unknown " ++ op ++ " operation"
      some { protocol := "brc20", operation := op, output := idx, data := data3,
             changes := [], description := description, value_usd := none,
             importance := importance }
    | _ => none
  | _ => none

/-- `extract_brc20_from_witness` (lines 202-225).

The source walks the witness items; `hex::decode(..).ok()?` failures end
the whole scan with `None` (modelled `Except.ok none`), a marker-free item
or an unparseable regex match falls through to the next item, a parsed
match returns `parse_brc20_json`'s verdict, and the slice
`&hex_str[content_start + 20..]` panics — `Except.error ()` — when the
marker sits within 20 hex characters of the end of the item. -/
def extract_brc20_from_witness : List String → Nat → Except Unit (Option Activity)
  | [], _ => Except.ok none
  | witness_item :: rest, idx =>
    match hexDecode witness_item with
    | none => Except.ok none
    | some bytes =>
      if strContains (hexEncode bytes) "6f7264" = false then
        extract_brc20_from_witness rest idx
      else
        match strFind (hexEncode bytes) "6f7264" with
        | none => Except.ok none
        | some content_start =>
          if (hexEncode bytes).length < content_start + 20 then Except.error ()
          else
            match hexDecode (strDrop (hexEncode bytes) (content_start + 20)) with
            | none => Except.ok none
            | some content_bytes =>
              match findBrc20Match (stripNulls (utf8Lossy content_bytes)) with
              | some json_match =>
                match jsonFromStr (String.mk json_match) with
                | some brc20_data => Except.ok (parse_brc20_json brc20_data idx)
                | none => extract_brc20_from_witness rest idx
              | none => extract_brc20_from_witness rest idx

/-- `parse_brc20` (lines 162-174): one witness scan per input, activities
collected in input order; a panic in any scan aborts the detector. -/
def parse_brc20Aux : List Input → Nat → Except Unit (List Activity)
  | [], _ => Except.ok []
  | input :: rest, idx =>
    match input.witness with
    | none => parse_brc20Aux rest (idx + 1)
    | some witness =>
      match extract_brc20_from_witness witness idx with
      | Except.error e => Except.error e
      | Except.ok none => parse_brc20Aux rest (idx + 1)
      | Except.ok (some activity) =>
        (parse_brc20Aux rest (idx + 1)).map (fun acts => activity :: acts)

def parse_brc20 (tx : Transaction) : Except Unit (List Activity) :=
  parse_brc20Aux tx.vin 0

/-- `extract_stamps_from_output` (lines 271-288). -/
def extract_stamps_from_output (out : Output) (idx : Nat) : Option Activity :=
  if strContains out.scriptpubkey "534d505300" then
    some { protocol := "stamps", operation := "mint", output := idx,
           data := [("protocol", Json.str "stamps")], changes := [],
           description := "STAMPS token activity detected", value_usd := none,
           importance := 6 }
  else none

def parse_stampsAux : Nat → List Output → List Activity
  | _, [] => []
  | idx, out :: rest =>
    (match extract_stamps_from_output out idx with
     | some activity => [activity]
     | none => []) ++ parse_stampsAux (idx + 1) rest

/-- `parse_stamps` (lines 176-186). -/
def parse_stamps (tx : Transaction) : List Activity :=
  parse_stampsAux 0 tx.vout

/-- `extract_runes_from_output` (lines 290-304): unconditionally `Some`. -/
def extract_runes_from_output (_out : Output) (idx : Nat) : Option Activity :=
  some { protocol := "runes", operation := "transfer", output := idx,
         data := [("protocol", Json.str "runes")], changes := [],
         description := "Runes protocol activity", value_usd := none,
         importance := 7 }

def parse_runesAux : Nat → List Output → List Activity
  | _, [] => []
  | idx, out :: rest =>
    (if strStarts out.scriptpubkey "6a5d" then
       match extract_runes_from_output out idx with
       | some activity => [activity]
       | none => []
     else []) ++ parse_runesAux (idx + 1) rest

/-- `parse_runes` (lines 188-200). -/
def parse_runes (tx : Transaction) : List Activity :=
  parse_runesAux 0 tx.vout

/- ### The classifier core shared by `process_transaction`
(lines 487-531) and `analyze_transaction` (lines 558-602): run the three
detectors in their fixed order, concatenate activities, and record a
protocol name iff its detector produced at least one activity. -/

def classify (tx : Transaction) : Except Unit (List Activity × List String) :=
  match parse_brc20 tx with
  | Except.error e => Except.error e
  | Except.ok brc20 =>
    let stamps := parse_stamps tx
    let runes := parse_runes tx
    let protocols :=
      (if brc20.isEmpty then [] else ["brc20"]) ++
      (if stamps.isEmpty then [] else ["stamps"]) ++
      (if runes.isEmpty then [] else ["runes"])
    Except.ok (brc20 ++ stamps ++ runes, protocols)

/- ### Stats aggregator (`update_stats`, lines 534-550)

The `HashMap<String, ProtocolStats>` is modelled as a total lookup
function; `entry(..).or_insert(..)` is get-or-default.  The u64 `+=`
counters wrap modulo 2^64 (release-build semantics; a debug build aborts
at the same inputs). -/

def u64Mod : Nat := 2 ^ 64

def emptyStats : String → Option ProtocolStats :=
  fun _ => none

/-- The per-protocol mutation inside `update_stats`'s loop body:
get-or-create, then bump both counters (mod 2^64) and overwrite the
last-activity timestamp. -/
def statsBump (total_value timestamp : Nat) (protocol : String)
    (o : Option ProtocolStats) : ProtocolStats :=
  let stat := o.getD
    { protocol := protocol, total_txs := 0, total_volume := 0,
      active_tokens := 0, last_activity := 0 }
  { stat with
    total_txs := (stat.total_txs + 1) % u64Mod,
    total_volume := (stat.total_volume + total_value) % u64Mod,
    last_activity := timestamp }

def statsStep (total_value timestamp : Nat) (stats : String → Option ProtocolStats)
    (protocol : String) : String → Option ProtocolStats :=
  fun q =>
    if q = protocol then some (statsBump total_value timestamp protocol (stats protocol))
    else stats q

def update_stats (stats : String → Option ProtocolStats) (tx : LiveTransaction) :
    String → Option ProtocolStats :=
  tx.protocols.foldl (statsStep tx.total_value tx.timestamp) stats

/- ### DefaultHasher (SipHash-1-3, keys 0/0) and the demo generator

`generate_demo_transaction` (lines 364-457) feeds the seed through
`DefaultHasher`: SipHash-1-3 with both keys zero over the eight
little-endian bytes of the u64 seed (little-endian host).  All 64-bit
arithmetic is mod 2^64. -/

def rotl64 (x n : Nat) : Nat :=
  ((x <<< n) % u64Mod) ||| (x >>> (64 - n))

def add64 (a b : Nat) : Nat :=
  (a + b) % u64Mod

structure SipState where
  v0 : Nat
  v1 : Nat
  v2 : Nat
  v3 : Nat

def sipRound (s : SipState) : SipState :=
  let v0 := add64 s.v0 s.v1
  let v1 := rotl64 s.v1 13
  let v1 := v1 ^^^ v0
  let v0 := rotl64 v0 32
  let v2 := add64 s.v2 s.v3
  let v3 := rotl64 s.v3 16
  let v3 := v3 ^^^ v2
  let v0 := add64 v0 v3
  let v3 := rotl64 v3 21
  let v3 := v3 ^^^ v0
  let v2 := add64 v2 v1
  let v1 := rotl64 v1 17
  let v1 := v1 ^^^ v2
  let v2 := rotl64 v2 32
  { v0 := v0, v1 := v1, v2 := v2, v3 := v3 }

/-- `DefaultHasher::new()` then `seed.hash(..)` then `finish()`: one
compression round per 8-byte block, three finalization rounds, message
length 8. -/
def defaultHash (seed : Nat) : Nat :=
  let m := seed % u64Mod
  let s : SipState :=
    { v0 := 0x736f6d6570736575, v1 := 0x646f72616e646f6d,
      v2 := 0x6c7967656e657261, v3 := 0x7465646279746573 }
  let s := { s with v3 := s.v3 ^^^ m }
  let s := sipRound s
  let s := { s with v0 := s.v0 ^^^ m }
  let b : Nat := 8 <<< 56
  let s := { s with v3 := s.v3 ^^^ b }
  let s := sipRound s
  let s := { s with v0 := s.v0 ^^^ b }
  let s := { s with v2 := s.v2 ^^^ 0xff }
  let s := sipRound (sipRound (sipRound s))
  s.v0 ^^^ s.v1 ^^^ s.v2 ^^^ s.v3

/-- The LCG advancing the demo seed in `start_monitoring` (line 337):
`rng = rng.wrapping_mul(1664525).wrapping_add(1013904223)`. -/
def nextSeed (rng : Nat) : Nat :=
  (rng * 1664525 + 1013904223) % u64Mod

/-- Seed fed to the n-th demo transaction of a run (the run starts at 0). -/
def demoSeedSeq (n : Nat) : Nat :=
  Nat.iterate nextSeed n 0

/-- Zero-padded 16-digit lower-case hex rendering of a u64 (the 016x
format specifier). -/
def hexPad16 (n : Nat) : String :=
  String.mk ((List.range 16).map (fun i => hexDigitChar (n / 16 ^ (15 - i) % 16)))

def demoProtocols : List String := ["brc20", "runes", "stamps"]

def demoOps : List String := ["deploy", "mint", "transfer"]

def demoTickers : List String := ["ORDI", "SATS", "MEME", "PEPE", "WZRD", "BITS"]

def demoRuneNames : List String := ["SATOSHI.NAKAMOTO", "BITCOIN.PIZZA", "GENESIS.BLOCK"]

/-- `generate_demo_transaction` (lines 364-457).  `now` is the wall-clock
timestamp the source reads from `SystemTime::now()`; everything else is
derived from the seed. -/
def generate_demo_transaction (seed now : Nat) : LiveTransaction :=
  let hash := defaultHash seed
  let protocol := demoProtocols.getD (hash % 3) ""
  let activity : Activity :=
    if protocol = "brc20" then
      let op := demoOps.getD (hash / 3 % 3) ""
      let tick := demoTickers.getD (hash / 9 % 6) ""
      let data :=
        [("tick", Json.str tick), ("operation", Json.str op)] ++
        (if op ≠ "deploy" then
           [("amount", Json.num (Int.ofNat (1000 + hash % 9000)))]
         else [])
      let description :=
        if op = "deploy" then "New BRC-20 token \x27" ++ tick ++ "\x27 deployed"
        else if op = "mint" then
          "Minted " ++ toString (1000 + hash % 9000) ++ " " ++ tick ++ " tokens"
        else if op = "transfer" then
          "Transfer " ++ toString (100 + hash % 900) ++ " " ++ tick ++ " tokens"
        else "Activity"
      { protocol := "brc20", operation := op, output := 0, data := data,
        changes := [], description := description, value_usd := none,
        importance := if op = "deploy" then 8 else if op = "mint" then 5 else 3 }
    else if protocol = "runes" then
      let rune := demoRuneNames.getD (hash / 3 % 3) ""
      { protocol := "runes", operation := "transfer", output := 0,
        data := [("rune", Json.str rune),
                 ("amount", Json.num (Int.ofNat (10000 + hash % 90000)))],
        changes := [], description := rune ++ " Runes transferred",
        value_usd := none, importance := 7 }
    else
      { protocol := "stamps", operation := "mint", output := 0, data := [],
        changes := [],
        description := "STAMP #" ++ toString (1000 + hash % 9000) ++ " minted",
        value_usd := none, importance := 6 }
  { txid := hexPad16 hash ++ hexPad16 (rotl64 hash 16) ++
      hexPad16 (rotl64 hash 32) ++ hexPad16 (rotl64 hash 48),
    timestamp := now,
    protocols := [protocol],
    total_value := 10000 + hash % 990000,
    activities := [activity],
    fee_rate := (10 : Rat) + ((hash % 140 : Nat) : Rat),
    size := 200 + hash % 800 }

/- ### Concrete inputs used by the claim theorems -/

def defaultStatus : TxStatus :=
  { confirmed := false, block_height := none, block_time := none }

/-- Hex encoding of the ASCII text
`\x7b"p":"brc-20","op":"deploy","tick":"ordi","max":"21000000"\x7d`. -/
def jsonHexDeploy : String :=
  "7b2270223a226272632d3230222c226f70223a226465706c6f79222c227469636b223a226f726469222c226d6178223a223231303030303030227d"

/-- A witness item in ord-envelope shape: the marker bytes `6f7264`,
seven filler bytes standing for the envelope plumbing (the fixed 20-hex
offset skips marker plus filler), then the deploy object. -/
def envHexDeploy : String :=
  "6f726400010203040506" ++ jsonHexDeploy

/-- The activity the brc-20 detector produces for `envHexDeploy` at input
index `idx`. -/
def deployActivity (idx : Nat) : Activity :=
  { protocol := "brc20", operation := "deploy", output := idx,
    data := [("tick", Json.str "ORDI"), ("operation", Json.str "deploy"),
             ("max_supply", Json.str "21000000")],
    changes := [], description := "New BRC-20 token \x27ORDI\x27 deployed",
    value_usd := none, importance := 8 }

/-- Witness item consisting of the bare ord marker: three bytes, six hex
characters, so the fixed 20-character slice offset is out of range. -/
def txOrdMarker : Transaction :=
  { txid := "aaaaaaaaaaaaaaaa", size := 120, fee := some 300,
    status := defaultStatus, vout := [],
    vin := [{ txid := "prev0", vout := 0, witness := some ["6f7264"], prevout := none }] }

/-- One valid-hex witness item whose re-encoding places the marker two
characters in, again within 20 hex characters of the end. -/
def txPanicB : Transaction :=
  { txid := "bbbbbbbbbbbbbbbb", size := 130, fee := some 310,
    status := defaultStatus, vout := [],
    vin := [{ txid := "prev1", vout := 1, witness := some ["ab6f7264"], prevout := none }] }

/-- The deploy object carried in an output script behind the data-carrier
opcode `6a`, the shape §8 of the spec describes. -/
def txC3out : Transaction :=
  { txid := "cccccccccccccccc", size := 250, fee := some 100,
    status := defaultStatus,
    vout := [{ scriptpubkey := "6a" ++ jsonHexDeploy,
               scriptpubkey_address := none, value := 10000 }],
    vin := [] }

/-- The same deploy object carried in an input witness envelope, where the
code actually looks for brc-20. -/
def txC3wit : Transaction :=
  { txid := "dddddddddddddddd", size := 300, fee := some 200,
    status := defaultStatus, vout := [],
    vin := [{ txid := "prev2", vout := 0, witness := some [envHexDeploy], prevout := none }] }

/-- First input: a non-hex witness element followed by a perfectly good
envelope.  Second input: the good envelope alone. -/
def txC4two : Transaction :=
  { txid := "eeeeeeeeeeeeeeee", size := 400, fee := some 500,
    status := defaultStatus, vout := [],
    vin := [{ txid := "prev3", vout := 0, witness := some ["zz", envHexDeploy], prevout := none },
            { txid := "prev4", vout := 1, witness := some [envHexDeploy], prevout := none }] }

/-- A transaction with no outputs and no inputs at all. -/
def txEmptyW : Transaction :=
  { txid := "ffffffffffffffff", size := 100, fee := none,
    status := defaultStatus, vout := [], vin := [] }

/-- Two outputs: one runes-tagged script, one ordinary pay script. -/
def txRunesW : Transaction :=
  { txid := "1111111111111111", size := 200, fee := some 50,
    status := defaultStatus,
    vout := [{ scriptpubkey := "6a5dffff", scriptpubkey_address := none, value := 546 },
             { scriptpubkey := "0014ab", scriptpubkey_address := none, value := 1000 }],
    vin := [] }

/-- The activity `extract_runes_from_output` always emits at index `idx`. -/
def runesActivity (idx : Nat) : Activity :=
  { protocol := "runes", operation := "transfer", output := idx,
    data := [("protocol", Json.str "runes")], changes := [],
    description := "Runes protocol activity", value_usd := none, importance := 7 }

/-- A brc-20 object whose operation is outside the deploy/mint/transfer
table. -/
def jBurn : Json :=
  Json.obj [("p", Json.str "brc-20"), ("op", Json.str "burn"), ("tick", Json.str "ordi")]

def burnActivity : Activity :=
  { protocol := "brc20", operation := "burn", output := 0,
    data := [("tick", Json.str "ORDI"), ("operation", Json.str "burn")],
    changes := [], description := "Unknown burn operation",
    value_usd := none, importance := 1 }

/-- A mint object with no `amt` field. -/
def jMintW : Json :=
  Json.obj [("p", Json.str "brc-20"), ("op", Json.str "mint"), ("tick", Json.str "sats")]

/-- A deploy object with only the required fields. -/
def jDepW : Json :=
  Json.obj [("p", Json.str "brc-20"), ("op", Json.str "deploy"), ("tick", Json.str "ordi")]

def depActW : Activity :=
  { protocol := "brc20", operation := "deploy", output := 0,
    data := [("tick", Json.str "ORDI"), ("operation", Json.str "deploy")],
    changes := [], description := "New BRC-20 token \x27ORDI\x27 deployed",
    value_usd := none, importance := 8 }

/-- Two live transactions whose output values sum past 2^64, and two small
ones. -/
def statsTxA : LiveTransaction :=
  { txid := "s1", timestamp := 11, protocols := ["brc20"], total_value := 2 ^ 63,
    activities := [], fee_rate := 0, size := 0 }

def statsTxB : LiveTransaction :=
  { txid := "s2", timestamp := 22, protocols := ["brc20"], total_value := 2 ^ 63,
    activities := [], fee_rate := 0, size := 0 }

def statsTxC : LiveTransaction :=
  { txid := "s3", timestamp := 10, protocols := ["brc20"], total_value := 5,
    activities := [], fee_rate := 0, size := 0 }

def statsTxD : LiveTransaction :=
  { txid := "s4", timestamp := 20, protocols := ["brc20"], total_value := 7,
    activities := [], fee_rate := 0, size := 0 }

/-- An output carrying the stamps marker, and the activity it produces. -/
def outStampsW : Output :=
  { scriptpubkey := "00534d505300ab", scriptpubkey_address := none, value := 0 }

def stampsActivity (idx : Nat) : Activity :=
  { protocol := "stamps", operation := "mint", output := idx,
    data := [("protocol", Json.str "stamps")], changes := [],
    description := "STAMPS token activity detected", value_usd := none,
    importance := 6 }

set_option maxRecDepth 8000

/- ## Theorems -/

/-- C1: the detectors are claimed to return normally on every transaction,
including witness elements that carry the ord marker closer than the fixed
20-hex-character offset to the end of the element.  The code does not: on
the witness stack `["6f7264"]` (the bare marker) the slice
`&hex_str[content_start + 20..]` is out of range and `parse_brc20` panics
(modelled `Except.error ()`), while the other two detectors do return
normally with empty lists. -/
theorem parse_brc20_panics_on_short_marker :
    parse_brc20 txOrdMarker = Except.error () ∧
    parse_stamps txOrdMarker = [] ∧ parse_runes txOrdMarker = [] :=
  ⟨rfl, rfl, rfl⟩

/-- C2 counterexample: an object with `op`/`tick` present but operation
`burn` — outside the deploy/mint/transfer table — still produces an
activity (operation `burn`, importance 1), where the claim says the
candidate is rejected with no activity. -/
theorem brc20_unknown_op_counterexample :
    parse_brc20_json jBurn 0 = some burnActivity ∧ burnActivity.importance = 1 :=
  ⟨rfl, rfl⟩

/-- C2 amended: an embedded object whose required fields are present but
whose case-folded operation is none of deploy/mint/transfer is forwarded
as an activity with importance 1 and an `Unknown .. operation`
description, not rejected. -/
theorem brc20_unknown_op_forwarded (j : Json) (idx : Nat) (op0 tick0 : String)
    (hop : jget j "op" = some (Json.str op0))
    (htick : jget j "tick" = some (Json.str tick0))
    (h1 : strLower op0 ≠ "deploy") (h2 : strLower op0 ≠ "mint")
    (h3 : strLower op0 ≠ "transfer") :
    ∃ a, parse_brc20_json j idx = some a ∧ a.operation = strLower op0 ∧
      a.importance = 1 ∧ a.description = "Unknown " ++ strLower op0 ++ " operation" := by
  simp only [parse_brc20_json, hop, htick]
  refine ⟨_, rfl, rfl, ?_, ?_⟩
  · simp only [if_neg h1, if_neg h2, if_neg h3]
  · simp only [if_neg h1, if_neg h2, if_neg h3]

/-- C2 amended, witnessed at the concrete `burn` object. -/
theorem brc20_unknown_op_forwarded_witness :
    ∃ a, parse_brc20_json jBurn 0 = some a ∧ a.operation = strLower "burn" ∧
      a.importance = 1 ∧ a.description = "Unknown " ++ strLower "burn" ++ " operation" :=
  brc20_unknown_op_forwarded jBurn 0 "burn" "ordi" rfl rfl
    (by decide) (by decide) (by decide)

/-- C3 counterexample: the claim's deploy object placed in a qualifying
(data-carrier `6a`) output script is not detected at all — `classify`
returns no activities and no protocols, not one brc20 deploy activity
with two state changes.  The brc-20 detector only reads input witnesses. -/
theorem deploy_in_output_script_counterexample :
    classify txC3out = Except.ok ([], []) :=
  rfl

/-- C3 amended: the same deploy object carried in an input witness
envelope yields exactly one activity with protocol brc20, operation
deploy, importance 8 — and an empty state-change list (the detector never
emits state changes), not the claimed two created-kind changes. -/
theorem deploy_in_witness_one_activity :
    classify txC3wit = Except.ok ([deployActivity 0], ["brc20"]) ∧
    (deployActivity 0).protocol = "brc20" ∧ (deployActivity 0).operation = "deploy" ∧
    (deployActivity 0).importance = 8 ∧ (deployActivity 0).changes = [] :=
  ⟨rfl, rfl, rfl, rfl, rfl⟩

/-- C4 counterexample: with witness stack `["zz", envHexDeploy]` the
non-hex first element makes the whole scan return `None`; the deploy
envelope in the second element — which alone yields the activity — is
never examined, where the claim says only the failing element is skipped
and the activity is still found. -/
theorem witness_hex_failure_counterexample :
    extract_brc20_from_witness ["zz", envHexDeploy] 0 = Except.ok none ∧
    extract_brc20_from_witness [envHexDeploy] 0 = Except.ok (some (deployActivity 0)) :=
  ⟨rfl, rfl⟩

/-- C4 amended: a hex-decode failure on a witness element ends that
input's scan with no activity and without error (later elements of that
input are not examined), while other inputs of the transaction are still
scanned independently — in `txC4two` the first input is suppressed by its
bad element and the second input still yields the deploy activity. -/
theorem witness_hex_failure_ends_input_scan :
    (∀ (w : String) (ws : List String) (idx : Nat), hexDecode w = none →
        extract_brc20_from_witness (w :: ws) idx = Except.ok none) ∧
    parse_brc20 txC4two = Except.ok [deployActivity 1] := by
  constructor
  · intro w ws idx h
    unfold extract_brc20_from_witness
    rw [h]
  · rfl

/-- C4 amended, witnessed at a concrete non-hex element. -/
theorem witness_hex_failure_ends_input_scan_witness :
    extract_brc20_from_witness ["zz"] 0 = Except.ok none :=
  witness_hex_failure_ends_input_scan.1 "zz" [] 0 rfl

/-- C7: a brc-20 object whose operation case-folds to `mint` with `tick`
present and `amt` absent still yields an activity, and that activity's
state-change list is empty. -/
theorem mint_without_amt_still_emitted (j : Json) (idx : Nat) (op0 tick0 : String)
    (hop : jget j "op" = some (Json.str op0)) (hmint : strLower op0 = "mint")
    (htick : jget j "tick" = some (Json.str tick0))
    (hamt : jget j "amt" = none) :
    ∃ a, parse_brc20_json j idx = some a ∧ a.operation = "mint" ∧
      a.changes = [] ∧ a.protocol = "brc20" := by
  simp only [parse_brc20_json, hop, htick, hamt]
  exact ⟨_, rfl, hmint, rfl, rfl⟩

/-- C7 witnessed at a concrete amt-less mint object. -/
theorem mint_without_amt_still_emitted_witness :
    ∃ a, parse_brc20_json jMintW 0 = some a ∧ a.operation = "mint" ∧
      a.changes = [] ∧ a.protocol = "brc20" :=
  mint_without_amt_still_emitted jMintW 0 "mint" "sats" rfl rfl rfl rfl

/-- C9: everything `generate_demo_transaction` derives — txid, protocol
choice, the single activity (operation, token/rune name, amount), total
value, fee rate, size — is a function of the seed alone; two runs at the
same seed and any wall-clock times agree on all of it, and every generated
live transaction carries exactly one activity.  The demo seed chain
advances by the pure LCG `nextSeed`. -/
theorem demo_generator_deterministic (seed t1 t2 : Nat) :
    (generate_demo_transaction seed t1).activities = (generate_demo_transaction seed t2).activities ∧
    (generate_demo_transaction seed t1).protocols = (generate_demo_transaction seed t2).protocols ∧
    (generate_demo_transaction seed t1).txid = (generate_demo_transaction seed t2).txid ∧
    (generate_demo_transaction seed t1).total_value = (generate_demo_transaction seed t2).total_value ∧
    (generate_demo_transaction seed t1).fee_rate = (generate_demo_transaction seed t2).fee_rate ∧
    (generate_demo_transaction seed t1).size = (generate_demo_transaction seed t2).size ∧
    (generate_demo_transaction seed t1).activities.length = 1 ∧
    (∀ n, demoSeedSeq (n + 1) = nextSeed (demoSeedSeq n)) :=
  ⟨rfl, rfl, rfl, rfl, rfl, rfl, rfl, fun n => Function.iterate_succ_apply' nextSeed n 0⟩

/-- C8: per-operation importance of every brc-20 activity (deploy 8,
mint 5, transfer 3, any other matched operation 1), importance 6 for
every stamps activity and 7 for every runes activity. -/
theorem importance_table :
    (∀ (j : Json) (idx : Nat) (a : Activity), parse_brc20_json j idx = some a →
        a.importance = if a.operation = "deploy" then 8
          else if a.operation = "mint" then 5
          else if a.operation = "transfer" then 3 else 1) ∧
    (∀ (out : Output) (idx : Nat) (a : Activity),
        extract_stamps_from_output out idx = some a → a.importance = 6) ∧
    (∀ (out : Output) (idx : Nat) (a : Activity),
        extract_runes_from_output out idx = some a → a.importance = 7) := by
  refine ⟨?_, ?_, ?_⟩
  · intro j idx a h
    unfold parse_brc20_json at h
    split at h
    · split at h
      · simp only [Option.some.injEq] at h
        subst h
        rfl
      · exact Option.noConfusion h
    · exact Option.noConfusion h
  · intro out idx a h
    unfold extract_stamps_from_output at h
    split at h
    · simp only [Option.some.injEq] at h
      subst h
      rfl
    · exact Option.noConfusion h
  · intro out idx a h
    unfold extract_runes_from_output at h
    simp only [Option.some.injEq] at h
    subst h
    rfl

/-- C8 witnessed on concrete deploy, stamps and runes inputs. -/
theorem importance_table_witness :
    (depActW.importance = if depActW.operation = "deploy" then 8
        else if depActW.operation = "mint" then 5
        else if depActW.operation = "transfer" then 3 else 1) ∧
    (stampsActivity 0).importance = 6 ∧ (runesActivity 0).importance = 7 :=
  ⟨importance_table.1 jDepW 0 depActW rfl,
   importance_table.2.1 outStampsW 0 (stampsActivity 0) rfl,
   importance_table.2.2 outStampsW 0 (runesActivity 0) rfl⟩

/-- Every activity of the runes detector: output index at least the
starting index, operation transfer, importance 7, the fixed one-entry data
payload and no state changes. -/
theorem parse_runesAux_mem (l : List Output) : ∀ (n : Nat) (a : Activity),
    a ∈ parse_runesAux n l →
    n ≤ a.output ∧ a.protocol = "runes" ∧ a.operation = "transfer" ∧
      a.importance = 7 ∧ a.data = [("protocol", Json.str "runes")] ∧ a.changes = [] := by
  induction l with
  | nil => intro n a ha; simp [parse_runesAux] at ha
  | cons o rest ih =>
    intro n a ha
    unfold parse_runesAux at ha
    rcases List.mem_append.mp ha with h1 | h2
    · by_cases hs : strStarts o.scriptpubkey "6a5d"
      · rw [if_pos hs] at h1
        simp only [extract_runes_from_output, List.mem_singleton] at h1
        subst h1
        exact ⟨Nat.le_refl n, rfl, rfl, rfl, rfl, rfl⟩
      · rw [if_neg hs] at h1
        simp at h1
    · have hr := ih (n + 1) a h2
      exact ⟨Nat.le_trans (Nat.le_succ n) hr.1, hr.2⟩

/-- The slice of the runes detector's output belonging to the output at
position `i` (scanning from base index `n`): exactly one fixed-shape
activity when the script starts with the runes tag, nothing otherwise. -/
theorem parse_runesAux_filter (l : List Output) : ∀ (n i : Nat) (h : i < l.length),
    (parse_runesAux n l).filter (fun a => a.output == n + i) =
      if strStarts (l.get ⟨i, h⟩).scriptpubkey "6a5d" then [runesActivity (n + i)]
      else [] := by
  induction l with
  | nil => intro n i h; exact absurd h (by simp)
  | cons o rest ih =>
    intro n i h
    unfold parse_runesAux
    rw [List.filter_append]
    cases i with
    | zero =>
      have htail : (parse_runesAux (n + 1) rest).filter (fun a => a.output == n + 0) = [] := by
        rw [List.filter_eq_nil_iff]
        intro a ha
        have hmem := (parse_runesAux_mem rest (n + 1) a ha).1
        simp only [beq_iff_eq]
        omega
      rw [htail, List.append_nil]
      by_cases hs : strStarts o.scriptpubkey "6a5d"
      · rw [if_pos hs]
        simp [extract_runes_from_output, runesActivity, List.filter, hs]
      · rw [if_neg hs]
        simp only [List.get]
        rw [if_neg hs]
        simp [List.filter]
    | succ j =>
      have hhead :
          ((if strStarts o.scriptpubkey "6a5d" then
              match extract_runes_from_output o n with
              | some activity => [activity]
              | none => []
            else []).filter (fun a => a.output == n + (j + 1))) = [] := by
        by_cases hs : strStarts o.scriptpubkey "6a5d"
        · rw [if_pos hs]
          simp only [extract_runes_from_output, List.filter]
          have : (n == n + (j + 1)) = false := by
            simp only [beq_eq_false_iff_ne]
            omega
          simp [this]
        · rw [if_neg hs]
          simp [List.filter]
      rw [hhead, List.nil_append]
      have harith : n + (j + 1) = (n + 1) + j := by omega
      rw [harith]
      have h2 : j < rest.length := by simpa using h
      have := ih (n + 1) j h2
      rw [this]
      simp only [List.get]

/-- C10: an output qualifies for the runes detector exactly when its
script hex starts with `6a5d`; a qualifying output at position `i`
contributes exactly one activity (operation transfer, importance 7, no
decoded payload fields beyond the fixed protocol entry, no state
changes), regardless of the bytes after the tag, and a non-qualifying
output contributes none. -/
theorem runes_tag_detection (tx : Transaction) (i : Nat) (h : i < tx.vout.length) :
    ((parse_runes tx).filter (fun a => a.output == i) =
       if strStarts (tx.vout.get ⟨i, h⟩).scriptpubkey "6a5d" then [runesActivity i]
       else []) ∧
    (∀ a ∈ parse_runes tx, a.operation = "transfer" ∧ a.importance = 7 ∧
       a.data = [("protocol", Json.str "runes")] ∧ a.changes = []) := by
  constructor
  · have hf := parse_runesAux_filter tx.vout 0 i h
    simpa using hf
  · intro a ha
    exact (parse_runesAux_mem tx.vout 0 a ha).2.2

/-- C10 witnessed on a two-output transaction: the `6a5dffff` output
yields exactly the fixed activity, the `0014ab` output yields nothing. -/
theorem runes_tag_detection_witness :
    (parse_runes txRunesW).filter (fun a => a.output == 0) = [runesActivity 0] ∧
    (parse_runes txRunesW).filter (fun a => a.output == 1) = [] :=
  ⟨(runes_tag_detection txRunesW 0 (by decide)).1,
   (runes_tag_detection txRunesW 1 (by decide)).1⟩

/-- A fold of `statsStep` leaves protocols outside the list untouched. -/
theorem statsFold_not_mem (tv ts : Nat) : ∀ (l : List String)
    (s : String → Option ProtocolStats) (q : String), q ∉ l →
    (l.foldl (statsStep tv ts) s) q = s q := by
  intro l
  induction l with
  | nil => intro s q _; rfl
  | cons p rest ih =>
    intro s q hq
    simp only [List.foldl_cons]
    rw [ih _ q (fun hmem => hq (List.mem_cons_of_mem p hmem))]
    have hqp : q ≠ p := fun e => hq (e ▸ List.mem_cons_self p rest)
    simp [statsStep, hqp]

/-- A fold of `statsStep` over a duplicate-free protocol list bumps each
listed protocol exactly once. -/
theorem statsFold_mem (tv ts : Nat) : ∀ (l : List String)
    (s : String → Option ProtocolStats) (p : String), l.Nodup → p ∈ l →
    (l.foldl (statsStep tv ts) s) p = some (statsBump tv ts p (s p)) := by
  intro l
  induction l with
  | nil => intro s p _ hp; simp at hp
  | cons a rest ih =>
    intro s p hnd hp
    simp only [List.foldl_cons]
    rcases List.mem_cons.mp hp with rfl | hmem
    · have hnotin : p ∉ rest := (List.nodup_cons.mp hnd).1
      rw [statsFold_not_mem tv ts rest _ p hnotin]
      simp [statsStep]
    · have hne : p ≠ a := by
        rintro rfl
        exact (List.nodup_cons.mp hnd).1 hmem
      rw [ih _ p (List.nodup_cons.mp hnd).2 hmem]
      simp [statsStep, hne]

/-- C6 counterexample: two live transactions of value 2^63 each.  After
the second update the cumulative volume the aggregator reports is 0, not
v1 + v2 = 2^64, and the volume counter has decreased from 2^63 to 0 (u64
wrap-around; a debug build aborts at the same point instead). -/
theorem stats_overflow_counterexample :
    (update_stats emptyStats statsTxA) "brc20" =
      some { protocol := "brc20", total_txs := 1, total_volume := 2 ^ 63,
             active_tokens := 0, last_activity := 11 } ∧
    (update_stats (update_stats emptyStats statsTxA) statsTxB) "brc20" =
      some { protocol := "brc20", total_txs := 2, total_volume := 0,
             active_tokens := 0, last_activity := 22 } ∧
    statsTxA.total_value + statsTxB.total_value ≠ 0 ∧ (0 : Nat) < 2 ^ 63 :=
  ⟨rfl, rfl, by norm_num [statsTxA, statsTxB], by norm_num⟩

/-- C6 amended: as long as the u64 counters do not wrap (sums stay below
2^64), each update bumps every listed protocol's transaction count by
one, adds the transaction value to its volume and overwrites its
last-activity timestamp; protocols not listed are untouched; two live
transactions for the same fresh protocol leave count 2 and volume
v1 + v2; and under the same no-overflow condition the counters never
decrease. -/
theorem stats_update_amended :
    (∀ (stats : String → Option ProtocolStats) (tx : LiveTransaction) (p : String),
        tx.protocols.Nodup → p ∈ tx.protocols →
        update_stats stats tx p =
          some (statsBump tx.total_value tx.timestamp p (stats p))) ∧
    (∀ (stats : String → Option ProtocolStats) (tx : LiveTransaction) (q : String),
        q ∉ tx.protocols → update_stats stats tx q = stats q) ∧
    (∀ (tx1 tx2 : LiveTransaction) (p : String), tx1.protocols = [p] →
        tx2.protocols = [p] → tx1.total_value + tx2.total_value < u64Mod →
        update_stats (update_stats emptyStats tx1) tx2 p =
          some { protocol := p, total_txs := 2,
                 total_volume := tx1.total_value + tx2.total_value,
                 active_tokens := 0, last_activity := tx2.timestamp }) ∧
    (∀ (stats : String → Option ProtocolStats) (tx : LiveTransaction),
        tx.protocols.Nodup →
        (∀ p st, stats p = some st →
            st.total_txs + 1 < u64Mod ∧ st.total_volume + tx.total_value < u64Mod) →
        ∀ q st, stats q = some st → ∃ st2, update_stats stats tx q = some st2 ∧
          st.total_txs ≤ st2.total_txs ∧ st.total_volume ≤ st2.total_volume) := by
  refine ⟨?_, ?_, ?_, ?_⟩
  · intro stats tx p hnd hp
    exact statsFold_mem tx.total_value tx.timestamp tx.protocols stats p hnd hp
  · intro stats tx q hq
    exact statsFold_not_mem tx.total_value tx.timestamp tx.protocols stats q hq
  · intro tx1 tx2 p h1 h2 hlt
    have hv1 : tx1.total_value % u64Mod = tx1.total_value :=
      Nat.mod_eq_of_lt (Nat.lt_of_le_of_lt (Nat.le_add_right _ _) hlt)
    have hv12 : (tx1.total_value + tx2.total_value) % u64Mod =
        tx1.total_value + tx2.total_value := Nat.mod_eq_of_lt hlt
    unfold update_stats
    rw [h1, h2]
    simp only [List.foldl_cons, List.foldl_nil]
    simp [statsStep, statsBump, emptyStats, hv1, hv12, u64Mod]
    exact hlt
  · intro stats tx hnd hbound q st hq
    by_cases hmem : q ∈ tx.protocols
    · obtain ⟨hb1, hb2⟩ := hbound q st hq
      refine ⟨statsBump tx.total_value tx.timestamp q (stats q),
        statsFold_mem tx.total_value tx.timestamp tx.protocols stats q hnd hmem, ?_, ?_⟩
      · rw [hq]
        simp only [statsBump, Option.getD_some]
        rw [Nat.mod_eq_of_lt hb1]
        exact Nat.le_succ _
      · rw [hq]
        simp only [statsBump, Option.getD_some]
        rw [Nat.mod_eq_of_lt hb2]
        exact Nat.le_add_right _ _
    · exact ⟨st,
        (statsFold_not_mem tx.total_value tx.timestamp tx.protocols stats q hmem).trans hq,
        Nat.le_refl _, Nat.le_refl _⟩

/-- C6 amended, witnessed with values 5 and 7: count 2, volume 12,
last-activity 20. -/
theorem stats_update_amended_witness :
    update_stats (update_stats emptyStats statsTxC) statsTxD "brc20" =
      some { protocol := "brc20", total_txs := 2, total_volume := 12,
             active_tokens := 0, last_activity := 20 } :=
  stats_update_amended.2.2.1 statsTxC statsTxD "brc20" rfl rfl
    (by norm_num [statsTxC, statsTxD, u64Mod])

/-- Every activity `parse_brc20_json` emits carries protocol `brc20`. -/
theorem parse_brc20_json_protocol (j : Json) (idx : Nat) (a : Activity)
    (h : parse_brc20_json j idx = some a) : a.protocol = "brc20" := by
  unfold parse_brc20_json at h
  split at h
  · split at h
    · simp only [Option.some.injEq] at h
      subst h
      rfl
    · exact Option.noConfusion h
  · exact Option.noConfusion h

/-- Every activity the witness scanner emits carries protocol `brc20`. -/
theorem extract_brc20_protocol (ws : List String) : ∀ (idx : Nat) (a : Activity),
    extract_brc20_from_witness ws idx = Except.ok (some a) → a.protocol = "brc20" := by
  induction ws with
  | nil =>
    intro idx a h
    simp [extract_brc20_from_witness] at h
  | cons w rest ih =>
    intro idx a h
    unfold extract_brc20_from_witness at h
    split at h
    · simp at h
    · split at h
      · exact ih idx a h
      · split at h
        · simp at h
        · split at h
          · simp at h
          · split at h
            · simp at h
            · split at h
              · split at h
                · simp only [Except.ok.injEq] at h
                  exact parse_brc20_json_protocol _ _ _ h
                · exact ih idx a h
              · exact ih idx a h

/-- Every activity `parse_brc20` collects carries protocol `brc20`. -/
theorem parse_brc20Aux_protocol (l : List Input) : ∀ (n : Nat) (b : List Activity),
    parse_brc20Aux l n = Except.ok b → ∀ a ∈ b, a.protocol = "brc20" := by
  induction l with
  | nil =>
    intro n b h a ha
    simp only [parse_brc20Aux, Except.ok.injEq] at h
    subst h
    simp at ha
  | cons i rest ih =>
    intro n b h a ha
    unfold parse_brc20Aux at h
    split at h
    · exact ih _ b h a ha
    · split at h
      · simp at h
      · exact ih _ b h a ha
      · rename_i activity heq
        cases hrec : parse_brc20Aux rest (n + 1) with
        | error e => rw [hrec] at h; simp [Except.map] at h
        | ok bs =>
          rw [hrec] at h
          simp only [Except.map, Except.ok.injEq] at h
          subst h
          rcases List.mem_cons.mp ha with rfl | hmem
          · exact extract_brc20_protocol _ _ _ heq
          · exact ih _ bs hrec a hmem

/-- Every activity the stamps detector emits carries protocol `stamps`. -/
theorem parse_stampsAux_protocol (l : List Output) : ∀ (n : Nat) (a : Activity),
    a ∈ parse_stampsAux n l → a.protocol = "stamps" := by
  induction l with
  | nil => intro n a ha; simp [parse_stampsAux] at ha
  | cons o rest ih =>
    intro n a ha
    unfold parse_stampsAux at ha
    rcases List.mem_append.mp ha with h1 | h2
    · by_cases hc : strContains o.scriptpubkey "534d505300"
      · simp only [extract_stamps_from_output, if_pos hc, List.mem_singleton] at h1
        subst h1
        rfl
      · simp [extract_stamps_from_output, hc] at h1
    · exact ih _ a h2

/-- Membership in the classifier's protocol tag for one detector: the
name is recorded iff the detector produced an activity, and then only
activities of that name exist in its output. -/
theorem protoTag_mem (l : List Activity) (name p : String)
    (hl : ∀ a ∈ l, a.protocol = name) :
    (p ∈ (if l.isEmpty then ([] : List String) else [name])) ↔
      ∃ a ∈ l, a.protocol = p := by
  cases l with
  | nil => simp
  | cons hd tl =>
    simp only [List.isEmpty_cons, Bool.false_eq_true, if_false]
    constructor
    · intro hp
      simp only [List.mem_singleton] at hp
      subst hp
      exact ⟨hd, List.mem_cons_self hd tl, hl hd (List.mem_cons_self hd tl)⟩
    · rintro ⟨a, ha, rfl⟩
      simp [hl a ha]

/-- Whenever classification returns, a protocol name is in the result set
iff some returned activity carries it. -/
theorem classify_ok_protocols (tx : Transaction) (acts : List Activity)
    (protos : List String) (h : classify tx = Except.ok (acts, protos)) (p : String) :
    p ∈ protos ↔ ∃ a ∈ acts, a.protocol = p := by
  unfold classify at h
  split at h
  · exact Except.noConfusion h
  · rename_i brc20 hbrc
    simp only [Except.ok.injEq, Prod.mk.injEq] at h
    obtain ⟨hacts, hprotos⟩ := h
    subst hacts
    subst hprotos
    have hb : ∀ a ∈ brc20, a.protocol = "brc20" :=
      parse_brc20Aux_protocol tx.vin 0 brc20 hbrc
    have hst : ∀ a ∈ parse_stamps tx, a.protocol = "stamps" :=
      fun a ha => parse_stampsAux_protocol tx.vout 0 a ha
    have hru : ∀ a ∈ parse_runes tx, a.protocol = "runes" :=
      fun a ha => (parse_runesAux_mem tx.vout 0 a ha).2.1
    have h1 := protoTag_mem brc20 "brc20" p hb
    have h2 := protoTag_mem (parse_stamps tx) "stamps" p hst
    have h3 := protoTag_mem (parse_runes tx) "runes" p hru
    constructor
    · intro hp
      rcases List.mem_append.mp hp with hp' | hp'
      · rcases List.mem_append.mp hp' with hp'' | hp''
        · obtain ⟨a, ha, hap⟩ := h1.mp hp''
          exact ⟨a, List.mem_append.mpr (Or.inl (List.mem_append.mpr (Or.inl ha))), hap⟩
        · obtain ⟨a, ha, hap⟩ := h2.mp hp''
          exact ⟨a, List.mem_append.mpr (Or.inl (List.mem_append.mpr (Or.inr ha))), hap⟩
      · obtain ⟨a, ha, hap⟩ := h3.mp hp'
        exact ⟨a, List.mem_append.mpr (Or.inr ha), hap⟩
    · rintro ⟨a, ha, hap⟩
      rcases List.mem_append.mp ha with ha' | ha'
      · rcases List.mem_append.mp ha' with ha'' | ha''
        · exact List.mem_append.mpr (Or.inl (List.mem_append.mpr (Or.inl (h1.mpr ⟨a, ha'', hap⟩))))
        · exact List.mem_append.mpr (Or.inl (List.mem_append.mpr (Or.inr (h2.mpr ⟨a, ha'', hap⟩))))
      · exact List.mem_append.mpr (Or.inr (h3.mpr ⟨a, ha', hap⟩))

/-- A witness stack none of whose elements decodes-and-re-encodes to hex
containing the ord marker is scanned to the end and yields nothing. -/
theorem extract_none_of_no_marker (ws : List String) : ∀ (idx : Nat),
    (∀ el ∈ ws, ∀ bs, hexDecode el = some bs →
        strContains (hexEncode bs) "6f7264" = false) →
    extract_brc20_from_witness ws idx = Except.ok none := by
  induction ws with
  | nil => intro idx _; rfl
  | cons w rest ih =>
    intro idx hcl
    unfold extract_brc20_from_witness
    cases hdec : hexDecode w with
    | none => rfl
    | some bytes =>
      dsimp only
      have hm := hcl w (List.mem_cons_self w rest) bytes hdec
      rw [if_pos hm]
      exact ih idx (fun el hel => hcl el (List.mem_cons_of_mem w hel))

/-- Under the no-marker condition on every input, the brc-20 detector
returns the empty list. -/
theorem parse_brc20Aux_clean (l : List Input) : ∀ (n : Nat),
    (∀ i ∈ l, ∀ w, i.witness = some w → ∀ el ∈ w, ∀ bs,
        hexDecode el = some bs → strContains (hexEncode bs) "6f7264" = false) →
    parse_brc20Aux l n = Except.ok [] := by
  induction l with
  | nil => intro n _; rfl
  | cons i rest ih =>
    intro n hcl
    unfold parse_brc20Aux
    have hrest := fun j hj => hcl j (List.mem_cons_of_mem i hj)
    cases hw : i.witness with
    | none => exact ih (n + 1) hrest
    | some w =>
      dsimp only
      rw [extract_none_of_no_marker w n
        (fun el hel => hcl i (List.mem_cons_self i rest) w hw el hel)]
      exact ih (n + 1) hrest

/-- Outputs without the stamps marker yield no stamps activities. -/
theorem parse_stampsAux_clean (l : List Output) : ∀ (n : Nat),
    (∀ o ∈ l, strContains o.scriptpubkey "534d505300" = false) →
    parse_stampsAux n l = [] := by
  induction l with
  | nil => intro n _; rfl
  | cons o rest ih =>
    intro n hcl
    unfold parse_stampsAux
    rw [ih (n + 1) (fun q hq => hcl q (List.mem_cons_of_mem o hq))]
    simp [extract_stamps_from_output, hcl o (List.mem_cons_self o rest)]

/-- Outputs whose script does not start with the runes tag yield no runes
activities. -/
theorem parse_runesAux_clean (l : List Output) : ∀ (n : Nat),
    (∀ o ∈ l, strStarts o.scriptpubkey "6a5d" = false) →
    parse_runesAux n l = [] := by
  induction l with
  | nil => intro n _; rfl
  | cons o rest ih =>
    intro n hcl
    unfold parse_runesAux
    rw [ih (n + 1) (fun q hq => hcl q (List.mem_cons_of_mem o hq))]
    simp [hcl o (List.mem_cons_self o rest)]

/-- A witness stack in which every ord-marker occurrence leaves at least
20 hex characters after its start is scanned without hitting the slice
panic. -/
theorem extract_no_panic (ws : List String) : ∀ (idx : Nat),
    (∀ el ∈ ws, ∀ bs, hexDecode el = some bs → ∀ cs,
        strFind (hexEncode bs) "6f7264" = some cs →
        cs + 20 ≤ (hexEncode bs).length) →
    ∃ r, extract_brc20_from_witness ws idx = Except.ok r := by
  induction ws with
  | nil => intro idx _; exact ⟨none, rfl⟩
  | cons w rest ih =>
    intro idx hcl
    have hrest := fun el hel => hcl el (List.mem_cons_of_mem w hel)
    unfold extract_brc20_from_witness
    cases hdec : hexDecode w with
    | none => exact ⟨none, rfl⟩
    | some bytes =>
      dsimp only
      by_cases hcont : strContains (hexEncode bytes) "6f7264" = false
      · rw [if_pos hcont]
        exact ih idx hrest
      · rw [if_neg hcont]
        have hsome : ∃ cs, strFind (hexEncode bytes) "6f7264" = some cs := by
          have htrue : strContains (hexEncode bytes) "6f7264" = true := by
            revert hcont
            cases strContains (hexEncode bytes) "6f7264" <;> simp
          unfold strContains at htrue
          exact Option.isSome_iff_exists.mp htrue
        obtain ⟨cs, hcs⟩ := hsome
        rw [hcs]
        dsimp only
        have hle := hcl w (List.mem_cons_self w rest) bytes hdec cs hcs
        rw [if_neg (by omega : ¬ (hexEncode bytes).length < cs + 20)]
        cases hexDecode (strDrop (hexEncode bytes) (cs + 20)) with
        | none => exact ⟨none, rfl⟩
        | some content_bytes =>
          dsimp only
          cases findBrc20Match (stripNulls (utf8Lossy content_bytes)) with
          | none => exact ih idx hrest
          | some json_match =>
            dsimp only
            cases jsonFromStr (String.mk json_match) with
            | none => exact ih idx hrest
            | some brc20_data => exact ⟨parse_brc20_json brc20_data idx, rfl⟩

/-- Under the no-short-marker condition on every input's witness, the
brc-20 detector returns normally. -/
theorem parse_brc20Aux_no_panic (l : List Input) : ∀ (n : Nat),
    (∀ i ∈ l, ∀ w, i.witness = some w → ∀ el ∈ w, ∀ bs,
        hexDecode el = some bs → ∀ cs, strFind (hexEncode bs) "6f7264" = some cs →
        cs + 20 ≤ (hexEncode bs).length) →
    ∃ b, parse_brc20Aux l n = Except.ok b := by
  induction l with
  | nil => intro n _; exact ⟨[], rfl⟩
  | cons i rest ih =>
    intro n hcl
    have hrest := fun j hj => hcl j (List.mem_cons_of_mem i hj)
    unfold parse_brc20Aux
    cases hw : i.witness with
    | none => exact ih (n + 1) hrest
    | some w =>
      dsimp only
      obtain ⟨r, hr⟩ := extract_no_panic w n
        (fun el hel => hcl i (List.mem_cons_self i rest) w hw el hel)
      rw [hr]
      cases r with
      | none => exact ih (n + 1) hrest
      | some activity =>
        obtain ⟨b, hb⟩ := ih (n + 1) hrest
        rw [hb]
        exact ⟨activity :: b, rfl⟩

/-- C5 counterexample to `classification itself never fails`: a witness
element whose re-encoded hex carries the ord marker two characters before
its end makes `classify` hit the out-of-range slice (a panic in the
source), instead of returning a result. -/
theorem classify_panic_counterexample :
    classify txPanicB = Except.error () :=
  rfl

/-- C5 amended: (1) with no stamps-marked or runes-tagged output and no
marker-bearing witness element, classification returns empty activities
and an empty protocol set; (2) whenever classification returns at all, a
protocol is in the result set iff one of the returned activities carries
it; (3) classification returns normally whenever every ord-marker
occurrence in every witness element leaves at least 20 hex characters
after its start.  That proviso is sufficient, not necessary (an earlier
element's hex failure can end a scan before a short marker is reached),
and classification is not failure-free in general: the panic
counterexample above violates the proviso and fails. -/
theorem classify_amended :
    (∀ tx : Transaction,
        (∀ o ∈ tx.vout, strContains o.scriptpubkey "534d505300" = false ∧
            strStarts o.scriptpubkey "6a5d" = false) →
        (∀ i ∈ tx.vin, ∀ w, i.witness = some w → ∀ el ∈ w, ∀ bs,
            hexDecode el = some bs → strContains (hexEncode bs) "6f7264" = false) →
        classify tx = Except.ok ([], [])) ∧
    (∀ (tx : Transaction) (acts : List Activity) (protos : List String),
        classify tx = Except.ok (acts, protos) →
        ∀ p, p ∈ protos ↔ ∃ a ∈ acts, a.protocol = p) ∧
    (∀ tx : Transaction,
        (∀ i ∈ tx.vin, ∀ w, i.witness = some w → ∀ el ∈ w, ∀ bs,
            hexDecode el = some bs → ∀ cs, strFind (hexEncode bs) "6f7264" = some cs →
            cs + 20 ≤ (hexEncode bs).length) →
        ∃ r, classify tx = Except.ok r) := by
  refine ⟨?_, ?_, ?_⟩
  · intro tx hout hwit
    have hb : parse_brc20 tx = Except.ok [] := parse_brc20Aux_clean tx.vin 0 hwit
    have hst : parse_stamps tx = [] :=
      parse_stampsAux_clean tx.vout 0 (fun o ho => (hout o ho).1)
    have hru : parse_runes tx = [] :=
      parse_runesAux_clean tx.vout 0 (fun o ho => (hout o ho).2)
    unfold classify
    rw [hb]
    simp [hst, hru]
  · exact classify_ok_protocols
  · intro tx hwit
    obtain ⟨b, hb⟩ := parse_brc20Aux_no_panic tx.vin 0 hwit
    have hb2 : parse_brc20 tx = Except.ok b := hb
    unfold classify
    rw [hb2]
    exact ⟨_, rfl⟩

/-- C5 amended, witnessed on the empty transaction: no markers anywhere,
empty activities and empty protocol set. -/
theorem classify_amended_witness :
    classify txEmptyW = Except.ok ([], []) :=
  classify_amended.1 txEmptyW (by simp [txEmptyW]) (by simp [txEmptyW])

end Btc
